import Mathlib

/-!
Shallow embedding of the pseudo-assembly interpreter (`src/unnamed/part_002`,
the `Interpreter` class of the repository) in Lean 4, together with theorems
settling the specification claims.

Modelling conventions:
* JavaScript numbers holding 32-bit values (the `Int32Array` register file,
  the results of bitwise operators) are modelled as `Int` with explicit
  wrapping `toInt32` (reduction mod 2^32 into `[-2^31, 2^31)`).
* JavaScript bitwise operators (`>>`, `<<`, `&`, `|`, `^`) coerce their
  operands with ToInt32 and operate on the 32-bit two's complement
  representation; they are modelled by `jsShr`, `jsShl`, `jsAnd`, `jsOr`,
  `jsXor` below, via the unsigned representative in `[0, 2^32)`.
* `Math.floor(a / b)` on exact 32-bit integer operands with `b ≠ 0` equals
  floor division `Int.fdiv a b`: the rational quotient is within half an ulp
  of its double rounding and never closer than `1/|b|` to a wrong integer,
  so the floor is unaffected by the double rounding.  Division by zero
  produces `±Infinity`/`NaN` in JS, which `Int32Array` stores as `0`; the
  embedding returns `0` in that case, matching the stored value.
* `a * b` on 32-bit operands is modelled as the exact product (then wrapped);
  in JS a product of magnitude above 2^53 is rounded as a double before
  ToInt32.  No claim depends on such products.
* `Number(token)` is only ever applied by the interpreter to register/count
  tokens; non-numeric tokens would give `NaN`.  `jsNumber` returns 0 for a
  non-numeric token (`Number('') = 0` in JS; the `NaN` cases are not
  exercised by any claim and are noted where they arise).
* Thrown `PreprocessingError`/`RuntimeError` values are modelled by
  `Except`.  JavaScript `TypeError`/`RangeError` faults (reading a property
  of `undefined`, `new Array(negative)`) are modelled by `Err.internal`.
  `Err.fuel` is a sentinel for the structural-fuel versions of the two
  `while` loops; `preprocess_fuel_sufficient` and `interpret_ne_fuel` prove
  it unreachable at the call sites used here.
* All string manipulation is re-implemented structurally over `List Char`
  (faithful to the JS `split`/`trim`/regex semantics used by the source) so
  that every definition reduces in the kernel.
-/

namespace PseudoAsm

/-! ### JavaScript 32-bit integer primitives -/

/-- ToInt32: wrap an integer into `[-2^31, 2^31)` (two's complement). -/
def toInt32 (n : Int) : Int := (n + 2147483648) % 4294967296 - 2147483648

/-- The unsigned 32-bit representative of a JS number, as a natural number. -/
def toUInt32n (x : Int) : Nat := (x % 4294967296).toNat

/-- JS `x >> k` (sign-propagating right shift on the ToInt32 coercion). -/
def jsShr (x : Int) (k : Nat) : Int := Int.fdiv (toInt32 x) (2 ^ k)

/-- JS `x << k` for `k < 32`: shift the ToInt32 coercion, wrap to 32 bits. -/
def jsShl (x : Int) (k : Nat) : Int := toInt32 (toInt32 x * 2 ^ k)

/-- JS `x & y` on 32-bit two's complement representations. -/
def jsAnd (x y : Int) : Int := toInt32 (Int.ofNat (Nat.land (toUInt32n x) (toUInt32n y)))

/-- JS `x | y` on 32-bit two's complement representations. -/
def jsOr (x y : Int) : Int := toInt32 (Int.ofNat (Nat.lor (toUInt32n x) (toUInt32n y)))

/-- JS `x ^ y` on 32-bit two's complement representations. -/
def jsXor (x y : Int) : Int := toInt32 (Int.ofNat (Nat.xor (toUInt32n x) (toUInt32n y)))

/-! ### Character-level string utilities (JS `split`, `trim`, `Number`, regexes) -/

/-- Split a character list at every occurrence of the character `sep`
(JS `String.prototype.split` with a one-character separator: `n` separators
produce `n+1` fields, empty fields included). -/
def splitChar (sep : Char) : List Char → List (List Char)
  | [] => [[]]
  | c :: cs =>
    let rest := splitChar sep cs
    if c = sep then [] :: rest
    else match rest with
      | [] => [[c]]
      | r :: rs => (c :: r) :: rs

/-- JS `String.prototype.trim` on a character list (strip leading and
trailing whitespace). -/
def trimChars (cs : List Char) : List Char :=
  ((cs.dropWhile Char.isWhitespace).reverse.dropWhile Char.isWhitespace).reverse

/-- Parse a nonempty all-digit character list as a natural number. -/
def digitsToNat? : List Char → Option Nat
  | [] => none
  | cs => if cs.all Char.isDigit then some (cs.foldl (fun a c => a * 10 + (c.toNat - 48)) 0) else none

/-- JS `Number(s)` restricted to the token shapes the interpreter feeds it:
`""` gives 0 (as in JS), an optionally `-`-signed digit string gives its
value.  Any other token would give `NaN` in JS; those cases are not
exercised by the claims and are mapped to 0 here. -/
def jsNumber (s : String) : Int :=
  match s.data with
  | [] => 0
  | '-' :: rest =>
    match digitsToNat? rest with
    | some n => -(n : Int)
    | none => 0
  | cs =>
    match digitsToNat? cs with
    | some n => (n : Int)
    | none => 0

/-- First match of the regex `-?\d+` (JS source regex, slash-delimited)
in a string (leftmost position,
greedy digit run), used by `getNumberInParen`.  `none` when the string
contains no digit. -/
def firstNumberMatch : List Char → Option Int
  | [] => none
  | c :: cs =>
    if c.isDigit then
      match digitsToNat? (c :: cs.takeWhile Char.isDigit) with
      | some n => some (n : Int)
      | none => none
    else if c = '-' then
      match cs with
      | d :: _ =>
        if d.isDigit then
          match digitsToNat? (cs.takeWhile Char.isDigit) with
          | some n => some (-(n : Int))
          | none => none
        else firstNumberMatch cs
      | [] => none
    else firstNumberMatch cs

/-- Test of the regex `/^\d+$/` (nonempty, digits only). -/
def isAllDigits (s : String) : Bool :=
  !s.data.isEmpty && s.data.all Char.isDigit

/-- Test of the regex `/^0\(\d+\)$/` (literal `0(`, digits, `)`).  -/
def isZeroParenForm (s : String) : Bool :=
  match s.data with
  | '0' :: '(' :: rest =>
    match rest.reverse with
    | ')' :: innerRev => !innerRev.isEmpty && innerRev.all Char.isDigit
    | _ => false
  | _ => false

/-- The digits between `0(` and `)`, i.e. JS `param.slice(2, -1)`. -/
def zeroParenInner (s : String) : String :=
  String.mk ((s.data.drop 2).reverse.drop 1).reverse

/-- Hex digits of a natural number, lowercase (JS `n.toString(16)`). -/
def natToHex (n : Nat) : String := String.mk (Nat.toDigits 16 n)

/-- JS `Number.prototype.toString(16)` for an integer. -/
def intToHex (n : Int) : String :=
  if n < 0 then "-" ++ natToHex n.natAbs else natToHex n.toNat

/-- JS `String.prototype.padStart(len, c)`. -/
def padStart (s : String) (len : Nat) (c : Char) : String :=
  String.mk (List.replicate (len - s.data.length) c) ++ s

/-! ### Data model (`keywords`, `byte`, `Statment`, `Label`, interpreter state) -/

/-- `export const keywords = [...]` -/
def keywords : List String :=
  ["A", "AR", "S", "SR", "M", "MR", "D", "DR", "C", "CR",
   "L", "LR", "ST", "LA", "J", "JP", "JZ", "JN", "DC", "DS"]

/-- `const MAX_LINES = 1000` -/
def MAX_LINES : Nat := 1000

/-- `const rrKeywords = [...]` (register-register instructions). -/
def rrKeywords : List String := ["AR", "SR", "MR", "DR", "CR", "LR"]

/-- `const rmKeywords = [...]` (register-memory instructions). -/
def rmKeywords : List String := ["A", "S", "M", "D", "C", "L", "ST", "LA"]

/-- `type byteType = 'INSTRUCTION' | 'DATA'` -/
inductive byteType where
  | INSTRUCTION
  | DATA
deriving DecidableEq, Repr

/-- `type byte = { val: number; type: byteType }` -/
structure byte where
  val : Int
  type : byteType
deriving DecidableEq, Repr

/-- `const FLAGS = { ZF: 6, SF: 7 }` -/
def FLAGS_ZF : Nat := 6

/-- `const FLAGS = { ZF: 6, SF: 7 }` -/
def FLAGS_SF : Nat := 7

/-- `type Statment = { val: string; byteSize: number }` -/
structure Statment where
  val : String
  byteSize : Int
deriving DecidableEq, Repr

/-- `type Label = { label: string; line: number; address: number }` -/
structure Label where
  label : String
  line : Nat
  address : Int
deriving DecidableEq, Repr

/-- Thrown errors.  `preprocessing`/`runtime` model the two domain error
classes `PreprocessingError`/`RuntimeError`; `internal` models JS
`TypeError`/`RangeError` faults on the paths where the source would crash;
`fuel` is the out-of-fuel sentinel of the loop embeddings, proven
unreachable below. -/
inductive Err where
  | preprocessing (msg : String)
  | runtime (msg : String)
  | internal (msg : String)
  | fuel
deriving DecidableEq, Repr

/-- The mutable fields of `class Interpreter`. -/
structure InterpState where
  statements : List Statment
  /-- `registers: Int32Array` of length 16; reads/writes wrap via `toInt32`. -/
  registers : List Int
  eflags : Int
  bytes : List byte
  labels : List Label
  currentLine : Nat
  executedLines : Nat
  currentMemoryAddress : Int
deriving DecidableEq, Repr

/-- The constructor `new Interpreter(code)`: split on newlines, one
zero-footprint statement per line, all registers zero. -/
def initState (code : String) : InterpState where
  statements := (splitChar '\n' code.data).map fun cs => { val := String.mk cs, byteSize := 0 }
  registers := List.replicate 16 0
  eflags := 0
  bytes := []
  labels := []
  currentLine := 0
  executedLines := 0
  currentMemoryAddress := 0

/-- `isAtEnd()` -/
def isAtEnd (st : InterpState) : Bool := st.statements.length ≤ st.currentLine

/-- Read `this.registers[r]`.  A negative or too-large index reads
`undefined` in JS (only reachable through malformed operands, which no
claim exercises); modelled as 0. -/
def regGet (st : InterpState) (r : Int) : Int :=
  if 0 ≤ r then st.registers.getD r.toNat 0 else 0

/-- Write `this.registers[r] = v` (the value is wrapped by `Int32Array`).
Out-of-range writes are ignored, as in JS. -/
def regSet (st : InterpState) (r v : Int) : List Int :=
  if 0 ≤ r then st.registers.set r.toNat (toInt32 v) else st.registers

/-! ### Tokenizer and small helpers -/

/-- `splitStatment`: `stmt.split(',').join(' , ').split(' ')`, then trim
each raw token and keep the nonempty ones. -/
def splitStatment (stmt : String) : List String :=
  let withCommas := List.intercalate [' ', ',', ' '] (splitChar ',' stmt.data)
  ((splitChar ' ' withCommas).map trimChars).filterMap fun t =>
    if t.isEmpty then none else some (String.mk t)

/-- `removeComments`: a line whose first trimmed character is `#` becomes
empty; otherwise everything from the first `#` on is stripped
(`val.trim().split('#')[0]`). -/
def removeComments (val : String) : String :=
  let t := trimChars val.data
  match t with
  | '#' :: _ => ""
  | _ => String.mk (t.takeWhile fun c => c ≠ '#')

/-- `isLabelDefined` (`findIndex !== -1`). -/
def isLabelDefined (labels : List Label) (label : String) : Bool :=
  labels.any fun currentLabel => currentLabel.label == label

/-- `getNumberInParen`: first match of the digit regex anywhere in the
operand (so `INTEGER(10)` yields 10).  The source throws a
`PreprocessingError` only when the operand string itself is empty; when the
regex does not match, JS produces `NaN` (never exercised; `NaN` serializes
to the same bytes as 0 in `numberToBytes`, and is modelled as 0). -/
def getNumberInParen (val : String) : Except Err Int :=
  if val.data.length < 1 then .error (.preprocessing "there isnt number.")
  else match firstNumberMatch val.data with
    | some n => .ok n
    | none => .ok 0

/-- `bytesToNumber`: reassemble `(a << 24) | (b << 16) | (c << 8) | d` from
`bytes[0] .. bytes[3]`.  The only caller passes exactly four bytes (it
faults before calling otherwise), so the `getD` defaults are unreachable. -/
def bytesToNumber (bytes : List byte) : Int :=
  let a := (bytes.getD 0 { val := 0, type := .DATA }).val
  let b := (bytes.getD 1 { val := 0, type := .DATA }).val
  let c := (bytes.getD 2 { val := 0, type := .DATA }).val
  let d := (bytes.getD 3 { val := 0, type := .DATA }).val
  jsOr (jsOr (jsOr (jsShl a 24) (jsShl b 16)) (jsShl c 8)) d

/-- `numberToBytes`: big-endian 4-byte encoding
`[(n >> 24) & 0xff, (n >> 16) & 0xff, (n >> 8) & 0xff, n & 0xff]`. -/
def numberToBytes (n : Int) : List byte :=
  [{ val := jsAnd (jsShr n 24) 255, type := .DATA },
   { val := jsAnd (jsShr n 16) 255, type := .DATA },
   { val := jsAnd (jsShr n 8) 255, type := .DATA },
   { val := jsAnd n 255, type := .DATA }]

/-- JS string `<` (lexicographic on UTF-16 code units; all strings compared
by the interpreter are ASCII). -/
def jsStrLt : List Char → List Char → Bool
  | [], [] => false
  | [], _ :: _ => true
  | _ :: _, [] => false
  | a :: as, b :: bs =>
    if a.toNat < b.toNat then true
    else if b.toNat < a.toNat then false
    else jsStrLt as bs

/-- JS string `a <= b`, i.e. `!(b < a)` for the total string order. -/
def jsStrLe (a b : String) : Bool := !(jsStrLt b.data a.data)

/-- `isAlphaNumeric` — reproduced faithfully, including the `for...in` slip:
the loop variable ranges over the **index strings** `"0"`, `"1"`, … of
`val.split('')`, not over the characters, and the range tests are JS string
comparisons.  Hence the result does not depend on the characters of `val`
at all (it is `true` for every string of length ≤ 90). -/
def isAlphaNumeric (val : String) : Bool :=
  (List.range val.data.length).all fun i =>
    let c := Nat.repr i
    (jsStrLe "a" c && jsStrLe c "z") ||
    (jsStrLe "A" c && jsStrLe c "Z") ||
    (jsStrLe "0" c && jsStrLe c "9")

/-! ### Error messages (the template literals of the source) -/

/-- `[Line n] Label "l" is defined more than once.` -/
def labelTwiceMsg (line : Nat) (label : String) : String :=
  let n := line + 1
  s!"[Line {n}] Label \"{label}\" is defined more than once."

/-- `[Line n] Label "l" name must be alpha numberic name.'` (the typo and the
stray trailing quote are the source's). -/
def labelNotAlnumMsg (line : Nat) (label : String) : String :=
  let n := line + 1
  s!"[Line {n}] Label \"{label}\" name must be alpha numberic name.'"

/-- `[Line n] Unrecognized instruction name "i".` -/
def unrecognizedMsg (line : Nat) (instruction : String) : String :=
  let n := line + 1
  s!"[Line {n}] Unrecognized instruction name \"{instruction}\"."

/-- `[Line n] Data declarations (labels with DC/DS) must precede executable
instructions. Move label "t" at the top of the program.` -/
def dataAfterCodeMsg (line : Nat) (tok0 : String) : String :=
  let n := line + 1
  s!"[Line {n}] Data declarations (labels with DC/DS) must precede executable instructions. Move label \"{tok0}\" at the top of the program."

/-- `[Line n] To many argument for instruction "i" .` -/
def tooManyArgsMsg (line : Nat) (instruction : String) : String :=
  let n := line + 1
  s!"[Line {n}] To many argument for instruction \"{instruction}\" ."

/-- `[Line n] Expected "," between arguments of instruction i.` -/
def expectedCommaMsg (line : Nat) (instruction : String) : String :=
  let n := line + 1
  s!"[Line {n}] Expected \",\" between arguments of instruction {instruction}."

/-- `[Line n] Instruction "i" accept only one argument "i <memmory address>".` -/
def onlyOneArgMsg (line : Nat) (instruction : String) : String :=
  let n := line + 1
  s!"[Line {n}] Instruction \"{instruction}\" accept only one argument \"{instruction} <memmory address>\"."

/-- `[Line n] There isn't defined label "p."` -/
def undefinedLabelMsg (line : Nat) (param : String) : String :=
  let n := line + 1
  s!"[Line {n}] There isn't defined label \"{param}.\""

/-- `[Line n] InvalidJumpTarget - attempted to jump to address 0x…, which is
not executable.` (address in hex, left-padded with zeros to 32 characters). -/
def invalidJumpMsg (line : Nat) (addr : Int) : String :=
  let n := line + 1
  let hex := padStart (intToHex addr) 32 '0'
  s!"[Line {n}] InvalidJumpTarget - attempted to jump to address 0x{hex}, which is not executable."

/-- `Program halted after exceeding the execution limit of 1000 instructions.
Possible infinite loop detected.` -/
def executionLimitMsg : String :=
  s!"Program halted after exceeding the execution limit of {MAX_LINES} instructions. Possible infinite loop detected."

/-- Message for the JS `TypeError` raised when the source reads a property
of `undefined` (missing operand token or out-of-range memory read). -/
def typeErrorMsg : String := "TypeError: cannot read properties of undefined"

/-- Message for the JS `RangeError` raised by `new Array(n)` with an invalid
length (negative `DS` repeat count). -/
def rangeErrorMsg : String := "RangeError: invalid array length"

/-! ### Memory, labels, flags -/

/-- `getMemoryAddr`: digits → absolute address; `0(r)` → value of register
`r`; otherwise a label lookup, failing with a runtime error. -/
def getMemoryAddr (st : InterpState) (param : String) : Except Err Int :=
  if isAllDigits param then .ok (jsNumber param)
  else if isZeroParenForm param then .ok (regGet st (jsNumber (zeroParenInner param)))
  else match st.labels.find? (fun label => label.label == param) with
    | some label => .ok label.address
    | none => .error (.runtime (undefinedLabelMsg st.currentLine param))

/-- `getNumberFromMemory`: reassemble `bytes[addr..addr+3]`.  Reading past
the end of the byte store (or at a negative address) dereferences
`undefined` in JS; that fault is modelled as `Err.internal`. -/
def getNumberFromMemory (st : InterpState) (addr : Int) : Except Err Int :=
  if 0 ≤ addr ∧ addr.toNat + 3 < st.bytes.length then
    .ok (bytesToNumber
      [st.bytes.getD addr.toNat { val := 0, type := .DATA },
       st.bytes.getD (addr.toNat + 1) { val := 0, type := .DATA },
       st.bytes.getD (addr.toNat + 2) { val := 0, type := .DATA },
       st.bytes.getD (addr.toNat + 3) { val := 0, type := .DATA }])
  else .error (.internal typeErrorMsg)

/-- `setNumberInMemory`: write the 4-byte encoding at `addr`.  (JS would
grow the array on an out-of-range write; no executed claim path stores out
of range, and `List.set` ignores such writes.) -/
def setNumberInMemory (st : InterpState) (addr : Int) (num : Int) : List byte :=
  let data := numberToBytes num
  if 0 ≤ addr then
    let a := addr.toNat
    ((((st.bytes.set a (data.getD 0 { val := 0, type := .DATA })).set (a + 1)
        (data.getD 1 { val := 0, type := .DATA })).set (a + 2)
        (data.getD 2 { val := 0, type := .DATA })).set (a + 3)
        (data.getD 3 { val := 0, type := .DATA }))
  else st.bytes

/-- The loop body of `getStatmentLine`: walk the statements accumulating
`stmtAddr`; return the first index with positive footprint whose
accumulated address equals `addr` exactly; fail once `addr` has been
passed, or when the statements are exhausted. -/
def getStatmentLineAux (curLine : Nat) (addr : Int) :
    List Statment → Nat → Int → Except Err Nat
  | [], _, _ => .error (.runtime (invalidJumpMsg curLine addr))
  | stmt :: rest, i, stmtAddr =>
    if stmt.byteSize > 0 ∧ addr = stmtAddr then .ok i
    else if addr < stmtAddr then .error (.runtime (invalidJumpMsg curLine addr))
    else getStatmentLineAux curLine addr rest (i + 1) (stmtAddr + stmt.byteSize)

/-- `getStatmentLine(addr)`: map a resolved byte address to a statement
index. -/
def getStatmentLine (st : InterpState) (addr : Int) : Except Err Nat :=
  getStatmentLineAux st.currentLine addr st.statements 0 0

/-- `updateEflags(num)`: clear the flags, set ZF iff `num === 0`, SF iff
`num < 0`. -/
def updateEflags (num : Int) : Int :=
  let e0 : Int := 0
  let e1 := jsOr e0 (if num = 0 then jsShl 1 FLAGS_ZF else 0)
  jsOr e1 (if num < 0 then jsShl 1 FLAGS_SF else 0)

/-- `isInstructionRR` -/
def isInstructionRR (instruction : String) : Bool := rrKeywords.contains instruction

/-- `isInstructionRM` -/
def isInstructionRM (instruction : String) : Bool := rmKeywords.contains instruction

/-- `getSizeOfInstruction`: 2 bytes for register-register, else 4. -/
def getSizeOfInstruction (instruction : String) : Int :=
  if isInstructionRR instruction then 2 else 4

/-! ### Layout pass (`preprocess`)

The `while` loop is embedded with structural fuel; the sentinel `Err.fuel`
is proven unreachable at the fuel supplied (`preprocess_fuel_sufficient`).
On a thrown error the JS object keeps the mutations made before the throw;
the `Except` embedding drops them.  No claim observes post-error state, and
the spec's propagation policy treats an error as aborting the call. -/

/-- One iteration of the `preprocess` loop body, for a not-yet-at-end state:
tokenize, record a label, validate the mnemonic, enforce data-before-code,
lay out bytes per `DC`/`DS`/instruction, record the footprint, advance. -/
def preprocessStep (isDataSection : Bool) (st : InterpState) : Except Err (Bool × InterpState) :=
  let stmtVal := (st.statements.getD st.currentLine { val := "", byteSize := 0 }).val
  let tokens := splitStatment (removeComments stmtVal)
  if tokens.length = 0 then .ok (isDataSection, { st with currentLine := st.currentLine + 1 })
  else
    let hasLabel := tokens.length > 1 && keywords.contains (tokens.getD 1 "")
    if hasLabel && isLabelDefined st.labels (tokens.getD 0 "") then
      .error (.preprocessing (labelTwiceMsg st.currentLine (tokens.getD 0 "")))
    else if hasLabel && !isAlphaNumeric (tokens.getD 0 "") then
      .error (.preprocessing (labelNotAlnumMsg st.currentLine (tokens.getD 0 "")))
    else
      let labels1 :=
        if hasLabel then
          st.labels ++ [{ label := tokens.getD 0 "", line := st.currentLine,
                          address := st.currentMemoryAddress }]
        else st.labels
      let instruction := if hasLabel then tokens.getD 1 "" else tokens.getD 0 ""
      if !keywords.contains instruction then
        .error (.preprocessing (unrecognizedMsg st.currentLine instruction))
      else
        let currentIndex : Nat := if hasLabel then 2 else 1
        -- `const args = tokens[currentIndex].split('*')`; a missing operand
        -- token is `undefined` and `.split` on it is a JS TypeError.
        match tokens.get? currentIndex with
        | none => .error (.internal typeErrorMsg)
        | some argTok =>
          let args := (splitChar '*' argTok.data).map String.mk
          if (instruction = "DC" ∨ instruction = "DS") ∧ isDataSection = false then
            .error (.preprocessing (dataAfterCodeMsg st.currentLine (tokens.getD 0 "")))
          else
            let isData2 := if instruction = "DC" ∨ instruction = "DS" then isDataSection else false
            let layout : Except Err (List byte × Int) :=
              if instruction = "DC" then
                if args.length = 2 then
                  let numberOfMemoryCells := jsNumber (args.getD 0 "") * 4
                  match getNumberInParen (args.getD 1 "") with
                  | .error e => .error e
                  | .ok number =>
                    -- the copy loop runs `numberOfMemoryCells / 4` times
                    .ok (st.bytes ++
                          (List.replicate (jsNumber (args.getD 0 "")).toNat (numberToBytes number)).flatten,
                         st.currentMemoryAddress + numberOfMemoryCells)
                else if args.length = 1 then
                  match getNumberInParen (args.getD 0 "") with
                  | .error e => .error e
                  | .ok number =>
                    .ok (st.bytes ++ numberToBytes number, st.currentMemoryAddress + 4)
                else
                  -- `switch` case falls through without matching arm
                  .ok (st.bytes, st.currentMemoryAddress)
              else if instruction = "DS" then
                let numberOfMemoryCells : Int :=
                  if args.length = 2 then jsNumber (args.getD 0 "") * 4 else 4
                if numberOfMemoryCells < 0 then .error (.internal rangeErrorMsg)
                else
                  .ok (st.bytes ++ List.replicate numberOfMemoryCells.toNat { val := 0, type := byteType.DATA },
                       st.currentMemoryAddress + numberOfMemoryCells)
              else
                let instructionSize := getSizeOfInstruction instruction
                .ok (st.bytes ++ List.replicate instructionSize.toNat { val := 0, type := byteType.INSTRUCTION },
                     st.currentMemoryAddress + instructionSize)
            match layout with
            | .error e => .error e
            | .ok (newBytes, newAddr) =>
              .ok (isData2,
                { st with
                  labels := labels1
                  bytes := newBytes
                  currentMemoryAddress := newAddr
                  statements := st.statements.set st.currentLine
                    { val := stmtVal, byteSize := newAddr - st.currentMemoryAddress }
                  currentLine := st.currentLine + 1 })

/-- The `while (!this.isAtEnd())` loop of `preprocess`, with structural
fuel. -/
def preprocessLoopFuel : Nat → Bool → InterpState → Except Err InterpState
  | fuel, isDataSection, st =>
    if isAtEnd st then .ok st
    else match fuel with
      | 0 => .error .fuel
      | fuel + 1 =>
        match preprocessStep isDataSection st with
        | .error e => .error e
        | .ok (d2, st2) => preprocessLoopFuel fuel d2 st2

/-- `preprocess()`: run the layout loop (the supplied fuel is sufficient,
see `preprocess_fuel_sufficient`), then reset position to the start. -/
def preprocess (st : InterpState) : Except Err InterpState :=
  match preprocessLoopFuel (st.statements.length + 1) true st with
  | .error e => .error e
  | .ok st2 => .ok { st2 with currentLine := 0, currentMemoryAddress := 0 }

/-! ### Execution engine (`interpretNextLine`, `interpret`)

The source checks the RR block, the RM block and the `J…` block with three
sequential `if`s; the three instruction classes are disjoint and none of
the blocks falls into another, so they are embedded as one dispatch.  A
taken jump `return`s immediately (flag `true` below); every other path
falls through to the common advance of address and line. -/

/-- The register-register block (`AR SR MR DR CR LR`). -/
def execRR (st : InterpState) (instruction : String) (tokens : List String)
    (currentIndex : Nat) : Except Err InterpState :=
  if (tokens.length : Int) - (currentIndex : Int) ≠ 3 then
    .error (.runtime (tooManyArgsMsg st.currentLine instruction))
  else
    let r1 := jsNumber (tokens.getD currentIndex "")
    if tokens.getD (currentIndex + 1) "" ≠ "," then
      .error (.runtime (expectedCommaMsg st.currentLine instruction))
    else
      let r2 := jsNumber (tokens.getD (currentIndex + 2) "")
      if instruction = "AR" then
        let v := regGet st r1 + regGet st r2
        .ok { st with registers := regSet st r1 v, eflags := updateEflags (toInt32 v) }
      else if instruction = "SR" then
        let v := regGet st r1 - regGet st r2
        .ok { st with registers := regSet st r1 v, eflags := updateEflags (toInt32 v) }
      else if instruction = "MR" then
        let v := regGet st r1 * regGet st r2
        .ok { st with registers := regSet st r1 v, eflags := updateEflags (toInt32 v) }
      else if instruction = "DR" then
        -- `Math.floor(a / b)`; division by zero stores 0 (ToInt32 of ±Infinity/NaN)
        let q : Int := if regGet st r2 = 0 then 0 else Int.fdiv (regGet st r1) (regGet st r2)
        .ok { st with registers := regSet st r1 q, eflags := updateEflags (toInt32 q) }
      else if instruction = "CR" then
        .ok { st with eflags := updateEflags (regGet st r1 - regGet st r2) }
      else if instruction = "LR" then
        let v := regGet st r2
        .ok { st with registers := regSet st r1 v, eflags := updateEflags (toInt32 v) }
      else .ok st

/-- The register-memory block (`A S M D C L ST LA`). -/
def execRM (st : InterpState) (instruction : String) (tokens : List String)
    (currentIndex : Nat) : Except Err InterpState :=
  if (tokens.length : Int) - (currentIndex : Int) ≠ 3 then
    .error (.runtime (tooManyArgsMsg st.currentLine instruction))
  else
    let r1 := jsNumber (tokens.getD currentIndex "")
    if tokens.getD (currentIndex + 1) "" ≠ "," then
      .error (.runtime (expectedCommaMsg st.currentLine instruction))
    else
      match getMemoryAddr st (tokens.getD (currentIndex + 2) "") with
      | .error e => .error e
      | .ok addr =>
        if instruction = "A" then
          match getNumberFromMemory st addr with
          | .error e => .error e
          | .ok m =>
            let v := regGet st r1 + m
            .ok { st with registers := regSet st r1 v, eflags := updateEflags (toInt32 v) }
        else if instruction = "S" then
          match getNumberFromMemory st addr with
          | .error e => .error e
          | .ok m =>
            let v := regGet st r1 - m
            .ok { st with registers := regSet st r1 v, eflags := updateEflags (toInt32 v) }
        else if instruction = "M" then
          match getNumberFromMemory st addr with
          | .error e => .error e
          | .ok m =>
            let v := regGet st r1 * m
            .ok { st with registers := regSet st r1 v, eflags := updateEflags (toInt32 v) }
        else if instruction = "D" then
          match getNumberFromMemory st addr with
          | .error e => .error e
          | .ok m =>
            let q : Int := if m = 0 then 0 else Int.fdiv (regGet st r1) m
            .ok { st with registers := regSet st r1 q, eflags := updateEflags (toInt32 q) }
        else if instruction = "C" then
          match getNumberFromMemory st addr with
          | .error e => .error e
          | .ok m =>
            -- the double flag write: recompute from the subtraction, then
            -- XOR-toggle both bits, then OR in the register's own flags
            let r1v := regGet st r1
            let e1 := updateEflags (r1v - m)
            let e2 := jsXor e1 (jsOr (jsShl 1 FLAGS_ZF) (jsShl 1 FLAGS_SF))
            let e3 := jsOr e2 (if r1v = 0 then jsShl 1 FLAGS_ZF else 0)
            let e4 := jsOr e3 (if r1v < 0 then jsShl 1 FLAGS_SF else 0)
            .ok { st with eflags := e4 }
        else if instruction = "L" then
          match getNumberFromMemory st addr with
          | .error e => .error e
          | .ok m =>
            .ok { st with registers := regSet st r1 m, eflags := updateEflags (toInt32 m) }
        else if instruction = "ST" then
          .ok { st with bytes := setNumberInMemory st addr (regGet st r1),
                        eflags := updateEflags (regGet st r1) }
        else if instruction = "LA" then
          .ok { st with registers := regSet st r1 addr, eflags := updateEflags (toInt32 addr) }
        else .ok st

/-- The jump block (any keyword starting with `J`).  The boolean is `true`
when the jump was taken (the source `return`s immediately in that case). -/
def execJump (st : InterpState) (instruction : String) (tokens : List String)
    (currentIndex : Nat) : Except Err (InterpState × Bool) :=
  if (tokens.length : Int) - (currentIndex : Int) ≠ 1 then
    .error (.runtime (onlyOneArgMsg st.currentLine instruction))
  else
    match getMemoryAddr st (tokens.getD currentIndex "") with
    | .error e => .error e
    | .ok addr =>
      match getStatmentLine st addr with
      | .error e => .error e
      | .ok statmentLine =>
        if instruction = "J" then
          .ok ({ st with currentLine := statmentLine, currentMemoryAddress := addr }, true)
        else if instruction = "JP" then
          if jsAnd st.eflags (jsShl 1 FLAGS_SF) = 0 then
            .ok ({ st with currentLine := statmentLine, currentMemoryAddress := addr }, true)
          else .ok (st, false)
        else if instruction = "JN" then
          if jsAnd st.eflags (jsShl 1 FLAGS_SF) ≠ 0 then
            .ok ({ st with currentLine := statmentLine, currentMemoryAddress := addr }, true)
          else .ok (st, false)
        else if instruction = "JZ" then
          if jsAnd st.eflags (jsShl 1 FLAGS_ZF) ≠ 0 then
            .ok ({ st with currentLine := statmentLine, currentMemoryAddress := addr }, true)
          else .ok (st, false)
        else .ok (st, false)

/-- The body of `interpretNextLine` after the counter increment and the
at-end check: tokenize the current statement, dispatch, and (unless a jump
was taken) advance address and line. -/
def execLine (st : InterpState) : Except Err InterpState :=
  let tokens := splitStatment (removeComments
    ((st.statements.getD st.currentLine { val := "", byteSize := 0 }).val))
  if tokens.length = 0 then .ok { st with currentLine := st.currentLine + 1 }
  else
    let hasLabel := tokens.length > 1 && keywords.contains (tokens.getD 1 "")
    let instruction := if hasLabel then tokens.getD 1 "" else tokens.getD 0 ""
    let currentIndex : Nat := if hasLabel then 2 else 1
    if keywords.contains instruction then
      let dispatched : Except Err (InterpState × Bool) :=
        if isInstructionRR instruction then
          match execRR st instruction tokens currentIndex with
          | .error e => .error e
          | .ok st2 => .ok (st2, false)
        else if isInstructionRM instruction then
          match execRM st instruction tokens currentIndex with
          | .error e => .error e
          | .ok st2 => .ok (st2, false)
        else if instruction.data.getD 0 ' ' = 'J' then
          execJump st instruction tokens currentIndex
        else .ok (st, false)
      match dispatched with
      | .error e => .error e
      | .ok (st2, jumped) =>
        if jumped then .ok st2
        else
          .ok { st2 with
            currentMemoryAddress := st2.currentMemoryAddress +
              (st2.statements.getD st2.currentLine { val := "", byteSize := 0 }).byteSize
            currentLine := st2.currentLine + 1 }
    else .error (.runtime (unrecognizedMsg st.currentLine instruction))

/-- `interpretNextLine()`: bump the execution counter, no-op when past the
end, otherwise execute the current statement. -/
def interpretNextLine (st0 : InterpState) : Except Err InterpState :=
  let st := { st0 with executedLines := st0.executedLines + 1 }
  if isAtEnd st then .ok st
  else execLine st

/-- The `while (!this.isAtEnd() && this.executedLines < MAX_LINES)` loop of
`interpret`, with structural fuel (sufficient at the call site,
see `interpret_ne_fuel`). -/
def interpretLoopFuel : Nat → InterpState → Except Err InterpState
  | fuel, st =>
    if isAtEnd st = false ∧ st.executedLines < MAX_LINES then
      match fuel with
      | 0 => .error .fuel
      | fuel + 1 =>
        match interpretNextLine st with
        | .error e => .error e
        | .ok st2 => interpretLoopFuel fuel st2
    else .ok st

/-- `interpret()`: preprocess, run the step loop, and fault with the
execution-ceiling error when the counter reached `MAX_LINES` — regardless
of whether the program also completed. -/
def interpret (st : InterpState) : Except Err InterpState :=
  match preprocess st with
  | .error e => .error e
  | .ok st1 =>
    match interpretLoopFuel (MAX_LINES + 1) st1 with
    | .error e => .error e
    | .ok st2 =>
      if MAX_LINES ≤ st2.executedLines then .error (.runtime executionLimitMsg)
      else .ok st2

/-! ## Theorems

### Arithmetic facts about the JS 32-bit primitives -/

deriving instance DecidableEq for Except

theorem toInt32_eq_self {v : Int} (h1 : -2147483648 ≤ v) (h2 : v < 2147483648) :
    toInt32 v = v := by
  unfold toInt32; omega

theorem toInt32_emod (x : Int) : toInt32 x % 4294967296 = x % 4294967296 := by
  unfold toInt32; omega

theorem toInt32_emod_self (x : Int) : toInt32 (x % 4294967296) = toInt32 x := by
  unfold toInt32; omega

theorem toInt32_lb (x : Int) : -2147483648 ≤ toInt32 x := by
  unfold toInt32; omega

theorem toInt32_ub (x : Int) : toInt32 x < 2147483648 := by
  unfold toInt32; omega

/-- Disjoint-range bitwise or coincides with addition:
`2^k * a ||| b = 2^k * a + b` when `b < 2^k`. -/
theorem lor_two_pow_mul (k a b : Nat) (hb : b < 2 ^ k) :
    Nat.lor (2 ^ k * a) b = 2 ^ k * a + b := by
  show (2 ^ k * a) ||| b = 2 ^ k * a + b
  apply Nat.eq_of_testBit_eq
  intro i
  rw [Nat.testBit_or]
  rcases Nat.lt_or_ge i k with hik | hik
  · have hmod : ∀ x : Nat, x.testBit i = (x % 2 ^ k).testBit i := by
      intro x
      rw [Nat.testBit_mod_two_pow]
      simp [hik]
    have h1 : (2 ^ k * a).testBit i = false := by
      rw [hmod, Nat.mul_mod_right]
      simp
    have h2 : (2 ^ k * a + b).testBit i = b.testBit i := by
      rw [hmod, Nat.mul_add_mod, Nat.mod_eq_of_lt hb]
    rw [h1, h2]
    simp
  · have hble : b < 2 ^ i :=
      lt_of_lt_of_le hb (Nat.pow_le_pow_right (by norm_num) hik)
    have hsplit : 2 ^ i = 2 ^ k * 2 ^ (i - k) := by
      rw [← pow_add]
      congr 1
      omega
    have hd1 : 2 ^ k * a / 2 ^ i = a / 2 ^ (i - k) := by
      rw [hsplit, ← Nat.div_div_eq_div_mul, Nat.mul_div_cancel_left a (Nat.two_pow_pos k)]
    have hd2 : (2 ^ k * a + b) / 2 ^ i = a / 2 ^ (i - k) := by
      rw [hsplit, ← Nat.div_div_eq_div_mul, Nat.mul_add_div (Nat.two_pow_pos k),
        Nat.div_eq_of_lt hb, Nat.add_zero]
    simp only [Nat.testBit_to_div_mod, hd1, hd2, Nat.div_eq_of_lt hble]
    simp

theorem jsAnd_255 (x : Int) : jsAnd x 255 = x % 256 := by
  have hrep : toUInt32n 255 = 255 := rfl
  have hand : Nat.land (toUInt32n x) 255 = toUInt32n x % 256 := by
    have h := Nat.and_pow_two_sub_one_eq_mod (toUInt32n x) 8
    norm_num at h
    exact h
  have h0 : (0 : Int) ≤ x % 4294967296 := Int.emod_nonneg _ (by norm_num)
  unfold jsAnd
  rw [hrep, hand]
  unfold toUInt32n
  have hcast : (Int.ofNat ((x % 4294967296).toNat % 256)) = (x % 4294967296) % 256 := by
    simp only [Int.ofNat_eq_natCast]
    omega
  rw [hcast, Int.emod_emod_of_dvd x (by norm_num : (256 : Int) ∣ 4294967296)]
  exact toInt32_eq_self (by omega) (by omega)

theorem jsShr_int32 {v : Int} (h1 : -2147483648 ≤ v) (h2 : v < 2147483648) (k : Nat) :
    jsShr v k = v / 2 ^ k := by
  unfold jsShr
  rw [toInt32_eq_self h1 h2, Int.fdiv_eq_ediv _ (by positivity)]

/-- The four byte values produced by `numberToBytes` are the base-256
digits (most significant first) of the unsigned 32-bit representative. -/
theorem numberToBytes_vals {v : Int} (h1 : -2147483648 ≤ v) (h2 : v < 2147483648) :
    (numberToBytes v).map byte.val =
      [v % 4294967296 / 16777216, v % 4294967296 / 65536 % 256,
       v % 4294967296 / 256 % 256, v % 4294967296 % 256] := by
  unfold numberToBytes
  simp only [List.map_cons, List.map_nil, jsAnd_255, jsShr_int32 h1 h2,
    List.cons.injEq, and_true]
  norm_num
  refine ⟨?_, ?_, ?_⟩ <;> omega

/-- `jsOr` of a wrapped high part (a multiple of `2^k` in unsigned range)
and a low part below `2^k` is their sum, wrapped. -/
theorem jsOr_toInt32_high (hi lo : Int) (k : Nat)
    (hhi : 0 ≤ hi) (hhil : hi < 4294967296) (hmul : hi.toNat % 2 ^ k = 0)
    (hlo : 0 ≤ lo) (hlok : lo.toNat < 2 ^ k) (hlo32 : lo < 4294967296) :
    jsOr (toInt32 hi) lo = toInt32 (hi + lo) := by
  have hrep1 : toUInt32n (toInt32 hi) = hi.toNat := by
    unfold toUInt32n
    rw [toInt32_emod, Int.emod_eq_of_lt hhi hhil]
  have hrep2 : toUInt32n lo = lo.toNat := by
    unfold toUInt32n
    rw [Int.emod_eq_of_lt hlo hlo32]
  obtain ⟨a, ha⟩ : ∃ a, hi.toNat = 2 ^ k * a :=
    ⟨hi.toNat / 2 ^ k, (Nat.mul_div_cancel' (Nat.dvd_of_mod_eq_zero hmul)).symm⟩
  unfold jsOr
  rw [hrep1, hrep2, ha, lor_two_pow_mul k a lo.toNat hlok, ← ha]
  have hofnat : (Int.ofNat (hi.toNat + lo.toNat)) = hi + lo := by
    simp only [Int.ofNat_eq_natCast]
    push_cast
    rw [Int.toNat_of_nonneg hhi, Int.toNat_of_nonneg hlo]
  rw [hofnat]

/-- Big-endian round-trip: decoding the four bytes of an encoded 32-bit
value recovers it.  (Shared helper used by several claims.) -/
theorem roundTrip {v : Int} (h1 : -2147483648 ≤ v) (h2 : v < 2147483648) :
    bytesToNumber (numberToBytes v) = v := by
  unfold bytesToNumber numberToBytes
  simp only [List.getD, List.get?, Option.getD_some, List.getD_cons_zero, List.getD_cons_succ]
  rw [jsAnd_255, jsAnd_255, jsAnd_255, jsAnd_255,
    jsShr_int32 h1 h2, jsShr_int32 h1 h2, jsShr_int32 h1 h2]
  have hb0 : (0 : Int) ≤ v / 2 ^ 24 % 256 := Int.emod_nonneg _ (by norm_num)
  have hb0' : v / 2 ^ 24 % 256 < 256 := Int.emod_lt_of_pos _ (by norm_num)
  have hb1 : (0 : Int) ≤ v / 2 ^ 16 % 256 := Int.emod_nonneg _ (by norm_num)
  have hb1' : v / 2 ^ 16 % 256 < 256 := Int.emod_lt_of_pos _ (by norm_num)
  have hb2 : (0 : Int) ≤ v / 2 ^ 8 % 256 := Int.emod_nonneg _ (by norm_num)
  have hb2' : v / 2 ^ 8 % 256 < 256 := Int.emod_lt_of_pos _ (by norm_num)
  have hb3 : (0 : Int) ≤ v % 256 := Int.emod_nonneg _ (by norm_num)
  have hb3' : v % 256 < 256 := Int.emod_lt_of_pos _ (by norm_num)
  -- the three shifted high parts
  have hin0 : toInt32 (v / 2 ^ 24 % 256) = v / 2 ^ 24 % 256 :=
    toInt32_eq_self (by omega) (by omega)
  have hin1 : toInt32 (v / 2 ^ 16 % 256) = v / 2 ^ 16 % 256 :=
    toInt32_eq_self (by omega) (by omega)
  have hin2 : toInt32 (v / 2 ^ 8 % 256) = v / 2 ^ 8 % 256 :=
    toInt32_eq_self (by omega) (by omega)
  have hshl0 : jsShl (v / 2 ^ 24 % 256) 24 = toInt32 (v / 2 ^ 24 % 256 * 16777216) := by
    unfold jsShl
    rw [hin0]
    norm_num
  have hshl1 : jsShl (v / 2 ^ 16 % 256) 16 = v / 2 ^ 16 % 256 * 65536 := by
    unfold jsShl
    rw [hin1]
    have : toInt32 (v / 2 ^ 16 % 256 * 65536) = v / 2 ^ 16 % 256 * 65536 :=
      toInt32_eq_self (by omega) (by omega)
    norm_num at this ⊢
    exact this
  have hshl2 : jsShl (v / 2 ^ 8 % 256) 8 = v / 2 ^ 8 % 256 * 256 := by
    unfold jsShl
    rw [hin2]
    have : toInt32 (v / 2 ^ 8 % 256 * 256) = v / 2 ^ 8 % 256 * 256 :=
      toInt32_eq_self (by omega) (by omega)
    norm_num at this ⊢
    exact this
  rw [hshl0, hshl1, hshl2]
  have hor0 : jsOr (toInt32 (v / 2 ^ 24 % 256 * 16777216)) (v / 2 ^ 16 % 256 * 65536) =
      toInt32 (v / 2 ^ 24 % 256 * 16777216 + v / 2 ^ 16 % 256 * 65536) := by
    apply jsOr_toInt32_high _ _ 24 (by omega) (by omega) (by omega) (by omega) (by omega) (by omega)
  have hor1 : jsOr (toInt32 (v / 2 ^ 24 % 256 * 16777216 + v / 2 ^ 16 % 256 * 65536))
      (v / 2 ^ 8 % 256 * 256) =
      toInt32 (v / 2 ^ 24 % 256 * 16777216 + v / 2 ^ 16 % 256 * 65536 + v / 2 ^ 8 % 256 * 256) := by
    apply jsOr_toInt32_high _ _ 16 (by omega) (by omega) (by omega) (by omega) (by omega) (by omega)
  have hor2 : jsOr (toInt32 (v / 2 ^ 24 % 256 * 16777216 + v / 2 ^ 16 % 256 * 65536 +
      v / 2 ^ 8 % 256 * 256)) (v % 256) =
      toInt32 (v / 2 ^ 24 % 256 * 16777216 + v / 2 ^ 16 % 256 * 65536 +
        v / 2 ^ 8 % 256 * 256 + v % 256) := by
    apply jsOr_toInt32_high _ _ 8 (by omega) (by omega) (by omega) (by omega) (by omega) (by omega)
  rw [hor0, hor1, hor2]
  have hsum : (v / 2 ^ 24 % 256 * 16777216 + v / 2 ^ 16 % 256 * 65536 +
      v / 2 ^ 8 % 256 * 256 + v % 256) % 4294967296 = v % 4294967296 := by
    omega
  calc toInt32 (v / 2 ^ 24 % 256 * 16777216 + v / 2 ^ 16 % 256 * 65536 +
        v / 2 ^ 8 % 256 * 256 + v % 256)
      = toInt32 ((v / 2 ^ 24 % 256 * 16777216 + v / 2 ^ 16 % 256 * 65536 +
        v / 2 ^ 8 % 256 * 256 + v % 256) % 4294967296) := (toInt32_emod_self _).symm
    _ = toInt32 (v % 4294967296) := by rw [hsum]
    _ = toInt32 v := toInt32_emod_self v
    _ = v := toInt32_eq_self h1 h2

/-! ### Flag semantics -/

/-- Closed form of `updateEflags`: 64 (ZF) for zero, 128 (SF) for negative,
0 otherwise. -/
theorem updateEflags_eq (v : Int) :
    updateEflags v = if v = 0 then 64 else if v < 0 then 128 else 0 := by
  simp only [updateEflags]
  split_ifs <;> first | decide | omega

/-- Characterization of the flag state produced by the register-memory `C`
instruction's double flag write (subtract-based recompute, XOR-toggle of
both bits, OR-in of the register's own zero/sign): the final Zero bit is
set iff the subtraction was nonzero **or** the register is zero, and the
final Sign bit is set iff the subtraction was nonnegative **or** the
register is negative. -/
theorem cFlags_spec (x m : Int) :
    (jsAnd (jsOr (jsOr (jsXor (updateEflags (x - m)) (jsOr (jsShl 1 FLAGS_ZF) (jsShl 1 FLAGS_SF)))
        (if x = 0 then jsShl 1 FLAGS_ZF else 0)) (if x < 0 then jsShl 1 FLAGS_SF else 0))
      (jsShl 1 FLAGS_ZF) ≠ 0 ↔ (x - m ≠ 0 ∨ x = 0)) ∧
    (jsAnd (jsOr (jsOr (jsXor (updateEflags (x - m)) (jsOr (jsShl 1 FLAGS_ZF) (jsShl 1 FLAGS_SF)))
        (if x = 0 then jsShl 1 FLAGS_ZF else 0)) (if x < 0 then jsShl 1 FLAGS_SF else 0))
      (jsShl 1 FLAGS_SF) ≠ 0 ↔ (0 ≤ x - m ∨ x < 0)) := by
  rw [updateEflags_eq]
  split_ifs <;> constructor <;>
    first
      | exact iff_of_true (by decide) (by omega)
      | exact iff_of_false (by decide) (by omega)

/-! ### Path lemmas for single execution steps -/

/-- An empty (or comment-only) line advances to the next line and does
nothing else. -/
theorem execLine_empty (st : InterpState)
    (htok : splitStatment (removeComments
      ((st.statements.getD st.currentLine { val := "", byteSize := 0 }).val)) = []) :
    execLine st = .ok { st with currentLine := st.currentLine + 1 } := by
  simp only [execLine, htok, List.length_nil, if_pos]

/-- A statement tokenizing to `J 0` (unconditional jump to address 0) sets
the position to the statement at address 0 and returns immediately. -/
theorem execLine_J0 (st : InterpState) (l : Nat)
    (htok : splitStatment (removeComments
      ((st.statements.getD st.currentLine { val := "", byteSize := 0 }).val)) = ["J", "0"])
    (hline : getStatmentLine st 0 = .ok l) :
    execLine st = .ok { st with currentLine := l, currentMemoryAddress := 0 } := by
  simp only [execLine, htok]
  simp +decide [keywords, isInstructionRR, rrKeywords, isInstructionRM, rmKeywords, execJump,
    getMemoryAddr, isAllDigits, jsNumber, digitsToNat?, hline]

/-! ### The self-jump program (claim C2)

`stateJ k` is the machine state after preprocessing the one-line program
`J 0` and executing `k` steps: every step takes the jump back to statement
0, so only the execution counter changes. -/

/-- State of the `J 0` self-loop after `k` executed steps. -/
def stateJ (k : Nat) : InterpState where
  statements := [{ val := "J 0", byteSize := 4 }]
  registers := List.replicate 16 0
  eflags := 0
  bytes := List.replicate 4 { val := 0, type := byteType.INSTRUCTION }
  labels := []
  currentLine := 0
  executedLines := k
  currentMemoryAddress := 0

theorem stepJ (k : Nat) : interpretNextLine (stateJ k) = .ok (stateJ (k + 1)) := by
  simp only [interpretNextLine]
  have hb : { stateJ k with executedLines := (stateJ k).executedLines + 1 } = stateJ (k + 1) := rfl
  rw [hb]
  have hend : isAtEnd (stateJ (k + 1)) = false := rfl
  rw [hend]
  simp only [Bool.false_eq_true, if_false]
  have htok : splitStatment (removeComments
      (((stateJ (k + 1)).statements.getD ((stateJ (k + 1)).currentLine)
        { val := "", byteSize := 0 }).val)) = ["J", "0"] := rfl
  have hline : getStatmentLine (stateJ (k + 1)) 0 = .ok 0 := rfl
  rw [execLine_J0 (stateJ (k + 1)) 0 htok hline]
  rfl

theorem loopJ : ∀ (n k : Nat), k + n = MAX_LINES →
    interpretLoopFuel (n + 1) (stateJ k) = .ok (stateJ MAX_LINES)
  | 0, k, h => by
    have hk : k = MAX_LINES := by omega
    subst hk
    rfl
  | n + 1, k, h => by
    rw [interpretLoopFuel]
    have h' : k + (n + 1) = 1000 := by simpa [MAX_LINES] using h
    have hc : isAtEnd (stateJ k) = false ∧ (stateJ k).executedLines < MAX_LINES :=
      ⟨rfl, by simp only [stateJ, MAX_LINES]; omega⟩
    rw [if_pos hc, stepJ k]
    exact loopJ n (k + 1) (by omega)

/-- C2: for the program consisting solely of an unconditional jump to its
own statement (`J 0`), `interpret()` throws the step-ceiling runtime error,
and the state reached by the step loop has an execution counter of exactly
`MAX_LINES = 1000` — each of the 1000 executed calls to `interpretNextLine`
increments the counter once, so exactly 1000 calls ran, not fewer and not
more. -/
theorem C2_step_ceiling_self_jump :
    interpret (initState "J 0") = .error (.runtime executionLimitMsg) ∧
    ((preprocess (initState "J 0")).bind (interpretLoopFuel (MAX_LINES + 1))).map
      (fun s => s.executedLines) = .ok MAX_LINES := by
  have hpre : preprocess (initState "J 0") = .ok (stateJ 0) := by decide
  have hloop : interpretLoopFuel (MAX_LINES + 1) (stateJ 0) = .ok (stateJ MAX_LINES) :=
    loopJ MAX_LINES 0 (by omega)
  constructor
  · simp only [interpret, hpre, hloop]
    norm_num [stateJ, MAX_LINES]
  · simp only [hpre, Except.bind]
    rw [hloop]
    rfl

end PseudoAsm
